import Mathlib

/-!
Verification of the static-site generator in this repository.

The repository contains two generator scripts: `build/build.js` (the main
build pipeline, embedded below in namespace `Build`) and an older unnamed
variant script (embedded in namespace `Variant`).  Pure string functions
are translated to Lean functions over `String`/`List Char`; the stateful
parts of `buildSite` (filesystem writes) are modelled as an explicit list
of filesystem operations returned by the function; JavaScript exceptions
(`assert`/`throw`) are modelled with `Except String`.

Modelling conventions, noted once here:
* JS `undefined`/`null` string inputs coerce to `""` via `toText`; fields
  that may be absent are therefore modelled as `String` with `""` for
  "absent", except where the distinction is observable (`order` and the
  bento hints, where `Number(undefined) = NaN` is observable: these are
  `Option ℚ`, `none` standing for a missing or non-finite numeric value).
* Type-shape assertions of the validator ("must be an object", "must be
  an array") cannot fail against the typed embedding and are omitted;
  every value-level assertion is kept, in source order, with the exact
  message text.
* JS regexes used by the source are straight-line patterns
  (`^https?:\/\/`, the slug pattern, the aspect pattern); each is
  translated to an executable Lean predicate.
-/

namespace Portfolio

/-- Whitespace test matching the JavaScript `String.prototype.trim` /
regexp `\s` class: ASCII whitespace, NBSP, BOM and the common Unicode
space separators and line terminators. -/
def isJsWs (c : Char) : Bool :=
  c = ' ' || c = (Char.ofNat 9) || c = (Char.ofNat 10) || c = (Char.ofNat 11) ||
  c = (Char.ofNat 12) || c = (Char.ofNat 13) || c = (Char.ofNat 0xa0) ||
  c = (Char.ofNat 0x1680) || (0x2000 ≤ c.toNat && c.toNat ≤ 0x200a) ||
  c = (Char.ofNat 0x2028) || c = (Char.ofNat 0x2029) || c = (Char.ofNat 0x202f) ||
  c = (Char.ofNat 0x205f) || c = (Char.ofNat 0x3000) || c = (Char.ofNat 0xfeff)

/-- JavaScript `String.prototype.trim` on a character list: drop leading
and trailing whitespace. -/
def jsTrimList (l : List Char) : List Char :=
  ((l.dropWhile isJsWs).reverse.dropWhile isJsWs).reverse

/-- JavaScript `String.prototype.trim`. -/
def jsTrim (s : String) : String :=
  ⟨jsTrimList s.data⟩

/-- Source `build.js` `toText`: coerce to string (here: already a string)
and trim.  The `null`/`undefined` branch of the source is modelled by
`toTextOpt`. -/
def toText (value : String) : String :=
  jsTrim value

/-- Source `build.js` `toText` applied to a possibly-missing value:
`String(value == null ? "" : value).trim()`. -/
def toTextOpt (value : Option String) : String :=
  toText (value.getD "")

/-- Whether a string has nonempty trimmed text: the source idiom
`toText(x).length > 0` (also the truthiness test `assert(toText(x))`). -/
def hasText (value : String) : Bool :=
  (toText value).length != 0

/-- The apostrophe character U+0027. -/
def aposChar : Char := Char.ofNat 39

/-- Single-character global replacement, the semantics of the JS
`str.replace(/c/g, repl)` calls used by `escapeHtml` and `safeJsonLd`. -/
def replaceChar (target : Char) (repl : List Char) (l : List Char) : List Char :=
  l.flatMap (fun c => if c = target then repl else [c])

/-- Character-level core of `escapeHtml`: the five sequential global
replacements of source `build.js` lines 24–29 (and the identical chain in
the variant script), applied to a character list. -/
def escapeChain (l : List Char) : List Char :=
  replaceChar aposChar "&#39;".data
    (replaceChar '"' "&quot;".data
      (replaceChar '>' "&gt;".data
        (replaceChar '<' "&lt;".data
          (replaceChar '&' "&amp;".data l))))

/-- Source `build.js` `escapeHtml`: trim via `toText`, then the five
entity replacements. -/
def escapeHtml (value : String) : String :=
  ⟨escapeChain (toText value).data⟩

/-- Source `build.js` `escapeAttr`, an alias for `escapeHtml`. -/
def escapeAttr (value : String) : String :=
  escapeHtml value

/-- Lower-case a character list (ASCII case folding, which is what the
`i` flag performs on the ASCII-only patterns of the source). -/
def lowerList (l : List Char) : List Char :=
  l.map Char.toLower

/-- Test for the source regex `^https?:\/\//i`: case-insensitive
`http://` or `https://` prefix. -/
def isAbsUrl (s : String) : Bool :=
  "http://".data.isPrefixOf (lowerList s.data) ||
  "https://".data.isPrefixOf (lowerList s.data)

/-- Substring occurrence test on character lists (used to state the
template-renderer properties and the `/app/i` heuristic). -/
def containsList (pat : List Char) : List Char → Bool
  | [] => pat.isEmpty
  | c :: t => pat.isPrefixOf (c :: t) || containsList pat t

/-- Substring occurrence test on strings. -/
def containsStr (pat s : String) : Bool :=
  containsList pat.data s.data

/-- Scan engine for leftmost non-overlapping replacement, with explicit
fuel so that the recursion is structural (hence kernel-computable); every
step consumes at least one character, so fuel `s.length` is never
exhausted. -/
def replaceAllFuel (pat repl : List Char) : Nat → List Char → List Char
  | _, [] => []
  | 0, s => s
  | fuel + 1, c :: t =>
    if pat ≠ [] ∧ pat.isPrefixOf (c :: t) then
      repl ++ replaceAllFuel pat repl fuel ((c :: t).drop pat.length)
    else
      c :: replaceAllFuel pat repl fuel t

/-- Leftmost non-overlapping replacement of every occurrence of `pat` by
`repl`: the semantics of the JS idiom `s.split(pat).join(repl)` (and of
`s.replaceAll(pat, repl)`) for a nonempty `pat`. -/
def replaceAllList (s pat repl : List Char) : List Char :=
  replaceAllFuel pat repl s.length s

/-- String wrapper for `replaceAllList`. -/
def replaceAll (s pat repl : String) : String :=
  ⟨replaceAllList s.data pat.data repl.data⟩

/-- The placeholder token for a key: `{{KEY}}`. -/
def tokenOf (key : String) : String :=
  "\x7b\x7b" ++ key ++ "\x7d\x7d"

/-- Source `build.js` `renderTemplate`: one `split`/`join` pass per entry
of the replacement mapping, in mapping (insertion) order.  The variant
script uses `replaceAll` in a loop, which has the same semantics. -/
def renderTemplate (template : String) (replacements : List (String × String)) : String :=
  replacements.foldl (fun html kv => replaceAll html (tokenOf kv.1) kv.2) template

/-- Drop a trailing run of slashes: the JS `replace(/\/+$/, "")`. -/
def stripTrailingSlashes (s : String) : String :=
  ⟨(s.data.reverse.dropWhile (fun c => c = '/')).reverse⟩

/-- Source `build.js` `normalizeBasePath`. -/
def normalizeBasePath (basePath : String) : String :=
  let raw := toText basePath
  if raw = "" || raw = "/" then ""
  else
    let withLeadingSlash := if "/".data.isPrefixOf raw.data then raw else "/" ++ raw
    stripTrailingSlashes withLeadingSlash

/-- Source `build.js` `withBasePath`. -/
def withBasePath (basePath urlPath : String) : String :=
  if isAbsUrl urlPath then urlPath
  else
    let pathValue := if "/".data.isPrefixOf urlPath.data then urlPath else "/" ++ urlPath
    basePath ++ pathValue

/-- Source `build.js` `toAbsoluteUrl`. -/
def toAbsoluteUrl (canonicalBase urlPath : String) : String :=
  if isAbsUrl urlPath then urlPath
  else stripTrailingSlashes canonicalBase ++ urlPath

/-- Source `build.js` `clampInt`.  A hint is `Option ℚ`: `none` models a
missing value or one whose `Number(...)` coercion is not finite; a finite
JS number is a rational. -/
def clampInt (value : Option ℚ) (min max fallback : ℤ) : ℤ :=
  match value with
  | none => fallback
  | some q => Max.max min (Min.min max (Rat.floor q))

/-- Test for the source regex `^\d+\s*\/\s*\d+$`. -/
def aspectOk (l : List Char) : Bool :=
  let r1 := l.dropWhile Char.isDigit
  let r2 := r1.dropWhile isJsWs
  match r2 with
  | '/' :: r3 =>
    let r4 := r3.dropWhile isJsWs
    !(l.takeWhile Char.isDigit).isEmpty &&
    !(r4.takeWhile Char.isDigit).isEmpty &&
    (r4.dropWhile Char.isDigit).isEmpty
  | _ => false

/-- Collapse every whitespace run to a single space: the JS
`replace(/\s+/g, " ")`. -/
def collapseWs : List Char → List Char
  | [] => []
  | c :: t =>
    if isJsWs c then ' ' :: collapseWs (t.dropWhile isJsWs)
    else c :: collapseWs t
termination_by l => l.length
decreasing_by
  · have := (List.dropWhile_sublist (l := t) (p := isJsWs)).length_le
    simp only [List.length_cons]
    omega
  · simp

/-- Source `build.js` `normalizeAspect`. -/
def normalizeAspect (aspect : String) : String :=
  let raw := toText aspect
  if aspectOk raw.data then ⟨collapseWs raw.data⟩ else "16 / 10"

/-- Source `build.js` `maybeExternalAttrs`. -/
def maybeExternalAttrs (url : String) : String :=
  if isAbsUrl url then " target=\"_blank\" rel=\"noreferrer noopener\""
  else ""

/-- Source `build.js` `truncate`.  The limit is a natural number (the
source call sites pass the literals 160 and 180); `slice(0, Math.max(0,
limit - 1))` is truncated subtraction. -/
def truncate (text : String) (limit : Nat) : String :=
  let raw := toText text
  if raw.length ≤ limit then raw
  else ⟨raw.data.take (limit - 1)⟩ ++ "…"

/-- Character class of the source regex `[^a-z0-9]` in `toSectionId`. -/
def isSectionIdChar (c : Char) : Bool :=
  ('a' ≤ c && c ≤ 'z') || ('0' ≤ c && c ≤ '9')

/-- Collapse every run of characters outside `[a-z0-9]` to a single dash:
the JS `replace(/[^a-z0-9]+/g, "-")`. -/
def collapseNonAlnum : List Char → List Char
  | [] => []
  | c :: t =>
    if isSectionIdChar c then c :: collapseNonAlnum t
    else '-' :: collapseNonAlnum (t.dropWhile (fun x => !isSectionIdChar x))
termination_by l => l.length
decreasing_by
  · simp
  · have := (List.dropWhile_sublist (l := t) (p := fun x => !isSectionIdChar x)).length_le
    simp only [List.length_cons]
    omega

/-- Source `build.js` `toSectionId`. -/
def toSectionId (value : String) : String :=
  let collapsed := collapseNonAlnum (lowerList (toText value).data)
  let stripped :=
    ((collapsed.dropWhile (fun c => c = '-')).reverse.dropWhile (fun c => c = '-')).reverse
  if stripped.isEmpty then "section" else ⟨stripped⟩

/-- JSON values produced by the structured-data builders (only strings,
arrays and objects occur; object fields keep insertion order). -/
inductive Json where
  | str (s : String)
  | arr (elems : List Json)
  | obj (fields : List (String × Json))
deriving Repr

/-- Lower-case hex digit. -/
def hexDigitChar (n : Nat) : Char :=
  if n < 10 then Char.ofNat (48 + n) else Char.ofNat (87 + n)

/-- String-character escaping of `JSON.stringify`: quote, backslash and
control characters; everything else (including `<`, `>`, quotes inside
entities, non-ASCII) is kept as is. -/
def jsonEscapeChar (c : Char) : List Char :=
  if c = '"' then ['\\', '"']
  else if c = '\\' then ['\\', '\\']
  else if c = Char.ofNat 8 then ['\\', 'b']
  else if c = Char.ofNat 9 then ['\\', 't']
  else if c = Char.ofNat 10 then ['\\', 'n']
  else if c = Char.ofNat 12 then ['\\', 'f']
  else if c = Char.ofNat 13 then ['\\', 'r']
  else if c.toNat < 32 then
    ['\\', 'u', '0', '0', hexDigitChar (c.toNat / 16), hexDigitChar (c.toNat % 16)]
  else [c]

/-- A `JSON.stringify` string literal. -/
def jsonQuote (s : String) : List Char :=
  '"' :: s.data.flatMap jsonEscapeChar ++ ['"']

mutual

/-- Compact `JSON.stringify(value)` (no spacing), as called by the source
`safeJsonLd`. -/
def jsonCompact : Json → List Char
  | .str sv => jsonQuote sv
  | .arr es => '[' :: jsonCompactElems es ++ [']']
  | .obj fs => "\x7b".data ++ jsonCompactFields fs ++ "\x7d".data

/-- Comma-joined compact array elements. -/
def jsonCompactElems : List Json → List Char
  | [] => []
  | [v] => jsonCompact v
  | v :: rest => jsonCompact v ++ ',' :: jsonCompactElems rest

/-- Comma-joined compact object fields. -/
def jsonCompactFields : List (String × Json) → List Char
  | [] => []
  | [(k, v)] => jsonQuote k ++ ':' :: jsonCompact v
  | (k, v) :: rest => jsonQuote k ++ ':' :: jsonCompact v ++ ',' :: jsonCompactFields rest

end

/-- Two-space indentation prefix used by `JSON.stringify(x, null, 2)`. -/
def indentN (n : Nat) : List Char :=
  List.replicate (2 * n) ' '

mutual

/-- Pretty `JSON.stringify(value, null, 2)`, as called by the variant
script for its JSON-LD payloads. -/
def jsonPretty : Json → Nat → List Char
  | .str sv, _ => jsonQuote sv
  | .arr [], _ => ['[', ']']
  | .arr (e :: es), lvl =>
    '[' :: '\n' :: jsonPrettyElems (e :: es) (lvl + 1) ++
      '\n' :: indentN lvl ++ [']']
  | .obj [], _ => "\x7b\x7d".data
  | .obj (f :: fs), lvl =>
    "\x7b".data ++ '\n' :: jsonPrettyFields (f :: fs) (lvl + 1) ++
      '\n' :: indentN lvl ++ "\x7d".data

/-- Indented, comma-newline-joined pretty array elements. -/
def jsonPrettyElems : List Json → Nat → List Char
  | [], _ => []
  | [v], lvl => indentN lvl ++ jsonPretty v lvl
  | v :: rest, lvl =>
    indentN lvl ++ jsonPretty v lvl ++ ',' :: '\n' :: jsonPrettyElems rest lvl

/-- Indented, comma-newline-joined pretty object fields. -/
def jsonPrettyFields : List (String × Json) → Nat → List Char
  | [], _ => []
  | [(k, v)], lvl => indentN lvl ++ jsonQuote k ++ ':' :: ' ' :: jsonPretty v lvl
  | (k, v) :: rest, lvl =>
    indentN lvl ++ jsonQuote k ++ ':' :: ' ' :: jsonPretty v lvl ++
      ',' :: '\n' :: jsonPrettyFields rest lvl

end

/-- Source `build.js` `safeJsonLd`: compact stringify, then globally
replace `<` by the six characters `<` and `>` by `>`. -/
def safeJsonLd (value : Json) : String :=
  ⟨replaceChar '>' "\\u003e".data (replaceChar '<' "\\u003c".data (jsonCompact value))⟩

/-- The variant script serializes its JSON-LD with
`JSON.stringify(data, null, 2)` and no angle-bracket escaping. -/
def jsonStringifyPretty (value : Json) : String :=
  ⟨jsonPretty value 0⟩

/-- A call-to-action: `{label, url}`. -/
structure Cta where
  label : String
  url : String
deriving Repr, DecidableEq

/-- A fact card: `{label, value}`. -/
structure Fact where
  label : String
  value : String
deriving Repr, DecidableEq

/-- A screenshot: `{src, alt, aspect?, fit?, caption?}` (absent text
fields modelled as `""`). -/
structure Screen where
  src : String
  alt : String
  aspect : String
  fit : String
  caption : String
deriving Repr, DecidableEq

/-- A design note: `{heading, body}`. -/
structure Note where
  heading : String
  body : String
deriving Repr, DecidableEq

/-- A links-section item: `{label, url, note?}`. -/
structure LinkItem where
  label : String
  url : String
  note : String
deriving Repr, DecidableEq

/-- Optional bento-grid hints of a project (`project.bento`); `none`
models an absent hint or one whose numeric coercion is non-finite. -/
structure Bento where
  colSpan : Option ℚ := none
  rowSpan : Option ℚ := none
  colSpanTablet : Option ℚ := none
  rowSpanTablet : Option ℚ := none
  colSpanMobile : Option ℚ := none
  rowSpanMobile : Option ℚ := none
deriving Repr, DecidableEq

/-- A project of the content document (`sectionName` models the source
field `section`, which is a reserved word in Lean). -/
structure Project where
  slug : String
  title : String
  summary : String
  sectionName : String
  serviceIcon : String
  heroImage : String
  order : Option ℚ
  tags : List String
  ctas : List Cta
  facts : List Fact
  screens : List Screen
  contrib : List String
  designNotes : Option (List Note) := none
  links : Option (List LinkItem) := none
  featured : Bool := false
  bento : Bento := {}
deriving Repr, DecidableEq

/-- The `site` object of the content document. -/
structure Site where
  title : String
  description : String
  canonicalBase : String
  basePath : String := ""
  ogImageDefault : String
  profileImage : String
  personName : String := ""
  personUrl : String := ""
  indexSections : List String
deriving Repr, DecidableEq

/-- The whole content document. -/
structure Content where
  site : Site
  projects : List Project
deriving Repr, DecidableEq

/-- Sequencing of two fallible steps: the control flow of consecutive
`assert` statements (an exception aborts the rest). -/
def seqE (a b : Except String Unit) : Except String Unit :=
  match a with
  | .ok _ => b
  | .error m => .error m

/-- Source `build.js` `assert(condition, message)`. -/
def check (cond : Bool) (message : String) : Except String Unit :=
  if cond then .ok () else .error message

/-- The error of the first failed check in a list, if any: the reference
semantics for a fixed ordered list of validation rules. -/
def firstError : List (Bool × String) → Except String Unit
  | [] => .ok ()
  | (b, m) :: rest => if b then firstError rest else .error m

/-- Character class `[a-z0-9]` of the slug regex. -/
def isSlugChar (c : Char) : Bool :=
  ('a' ≤ c && c ≤ 'z') || ('0' ≤ c && c ≤ '9')

/-- Test for the source slug regex `^[a-z0-9]+(?:-[a-z0-9]+)*$`:
dash-separated nonempty groups of lowercase alphanumerics. -/
def slugOk (s : String) : Bool :=
  (s.data.splitOn '-').all (fun g => !g.isEmpty && g.all isSlugChar)

/-- The field-path prefix `projects[i]` used in validation messages. -/
def projPtr (i : Nat) : String :=
  "projects[" ++ toString i ++ "]"

/-- The `site.indexSections.forEach` assertion loop of `validateContent`. -/
def validateSections : List String → Nat → Except String Unit
  | [], _ => .ok ()
  | sec :: rest, i =>
    seqE (check (hasText sec) ("site.indexSections[" ++ toString i ++ "] must not be empty."))
      (validateSections rest (i + 1))

/-- The `project.ctas.forEach` assertion loop of `validateContent`. -/
def validateCtas (pp : String) : List Cta → Nat → Except String Unit
  | [], _ => .ok ()
  | cta :: rest, j =>
    seqE (check (hasText cta.label) (pp ++ ".ctas[" ++ toString j ++ "].label is required."))
      (seqE (check (hasText cta.url) (pp ++ ".ctas[" ++ toString j ++ "].url is required."))
        (validateCtas pp rest (j + 1)))

/-- The per-project assertion sequence of `validateContent`, with the
slug and order values seen so far (`slugSet`, `orderSet`) passed in.  The
vacuous `Array.isArray` / "must be an object" shape assertions and the
conditional `designNotes`/`links` array-shape assertions are omitted (they
cannot fail against the typed document). -/
def validateProject (sections : List String) (p : Project) (i : Nat)
    (slugs : List String) (orders : List ℚ) : Except String Unit :=
  let pp := projPtr i
  seqE (check (hasText p.slug) (pp ++ ".slug is required."))
  (seqE (check (hasText p.title) (pp ++ ".title is required."))
  (seqE (check (hasText p.summary) (pp ++ ".summary is required."))
  (seqE (check (hasText p.sectionName) (pp ++ ".section is required."))
  (seqE (check (hasText p.serviceIcon) (pp ++ ".serviceIcon is required."))
  (seqE (check (hasText p.heroImage) (pp ++ ".heroImage is required."))
  (seqE (check (sections.contains p.sectionName) (pp ++ ".section must be one of site.indexSections."))
  (seqE (check (slugOk p.slug) (pp ++ ".slug must use lowercase letters, numbers, and hyphens."))
  (seqE (check (!(slugs.contains p.slug)) ("Duplicate slug found: " ++ p.slug))
  (seqE (check p.order.isSome (pp ++ ".order must be a number."))
  (seqE (check (!(orders.contains (p.order.getD 0))) (pp ++ ".order must be unique."))
  (seqE (check (p.tags.length != 0) (pp ++ ".tags must have at least one item."))
  (seqE (check (decide (p.ctas.length ≤ 2)) (pp ++ ".ctas supports up to 2 items."))
  (seqE (validateCtas pp p.ctas 0)
  (seqE (check (decide (2 ≤ p.facts.length ∧ p.facts.length ≤ 4)) (pp ++ ".facts must contain 2 to 4 items."))
  (seqE (check (p.screens.length != 0) (pp ++ ".screens must contain at least one item."))
  (check (decide (5 ≤ p.contrib.length ∧ p.contrib.length ≤ 8)) (pp ++ ".contrib should contain 5 to 8 items.")))))))))))))))))

/-- The `content.projects.forEach` loop of `validateContent`, threading
the slug/order sets through. -/
def validateProjects (sections : List String) :
    List Project → Nat → List String → List ℚ → Except String Unit
  | [], _, _, _ => .ok ()
  | p :: rest, i, slugs, orders =>
    seqE (validateProject sections p i slugs orders)
      (validateProjects sections rest (i + 1) (p.slug :: slugs) (p.order.getD 0 :: orders))

/-- Source `build.js` `validateContent`: the assertion sequence in source
order. -/
def validateContent (c : Content) : Except String Unit :=
  seqE (check (hasText c.site.title) "site.title is required.")
  (seqE (check (hasText c.site.description) "site.description is required.")
  (seqE (check (hasText c.site.canonicalBase) "site.canonicalBase is required.")
  (seqE (check (hasText c.site.ogImageDefault) "site.ogImageDefault is required.")
  (seqE (check (hasText c.site.profileImage) "site.profileImage is required.")
  (seqE (check (c.site.indexSections.length != 0) "site.indexSections must contain at least one section.")
  (seqE (validateSections c.site.indexSections 0)
  (seqE (check (isAbsUrl c.site.canonicalBase) "site.canonicalBase must start with http:// or https://.")
  (seqE (check (c.projects.length != 0) "projects must contain at least one item.")
  (validateProjects c.site.indexSections c.projects 0 [] [])))))))))

/-- Modelled from the spec: the claim describes validation as one fixed,
flat, ordered list of (condition, message) rules — site-level required
fields first, then `indexSections`, then the `canonicalBase` format, then
non-emptiness of `projects`, then the per-project rules in array order
with the slug-format rule before the slug-duplicate rule and the
order-numeric rule before the order-duplicate rule.  These functions
build that list so that `validateContent` can be compared against
"the error of the first violated rule". -/
def sectionChecks : List String → Nat → List (Bool × String)
  | [], _ => []
  | sec :: rest, i =>
    (hasText sec, "site.indexSections[" ++ toString i ++ "] must not be empty.") ::
      sectionChecks rest (i + 1)

/-- Ordered per-CTA rules of one project (see `sectionChecks`). -/
def ctaChecks (pp : String) : List Cta → Nat → List (Bool × String)
  | [], _ => []
  | cta :: rest, j =>
    (hasText cta.label, pp ++ ".ctas[" ++ toString j ++ "].label is required.") ::
    (hasText cta.url, pp ++ ".ctas[" ++ toString j ++ "].url is required.") ::
    ctaChecks pp rest (j + 1)

/-- Ordered rules of one project (see `sectionChecks`). -/
def projectChecks (sections : List String) (p : Project) (i : Nat)
    (slugs : List String) (orders : List ℚ) : List (Bool × String) :=
  let pp := projPtr i
  (hasText p.slug, pp ++ ".slug is required.") ::
  (hasText p.title, pp ++ ".title is required.") ::
  (hasText p.summary, pp ++ ".summary is required.") ::
  (hasText p.sectionName, pp ++ ".section is required.") ::
  (hasText p.serviceIcon, pp ++ ".serviceIcon is required.") ::
  (hasText p.heroImage, pp ++ ".heroImage is required.") ::
  (sections.contains p.sectionName, pp ++ ".section must be one of site.indexSections.") ::
  (slugOk p.slug, pp ++ ".slug must use lowercase letters, numbers, and hyphens.") ::
  (!(slugs.contains p.slug), "Duplicate slug found: " ++ p.slug) ::
  (p.order.isSome, pp ++ ".order must be a number.") ::
  (!(orders.contains (p.order.getD 0)), pp ++ ".order must be unique.") ::
  (p.tags.length != 0, pp ++ ".tags must have at least one item.") ::
  (decide (p.ctas.length ≤ 2), pp ++ ".ctas supports up to 2 items.") ::
  (ctaChecks pp p.ctas 0 ++
    [(decide (2 ≤ p.facts.length ∧ p.facts.length ≤ 4), pp ++ ".facts must contain 2 to 4 items."),
     (p.screens.length != 0, pp ++ ".screens must contain at least one item."),
     (decide (5 ≤ p.contrib.length ∧ p.contrib.length ≤ 8), pp ++ ".contrib should contain 5 to 8 items.")])

/-- Ordered rules of all projects in array order (see `sectionChecks`). -/
def projectsChecks (sections : List String) :
    List Project → Nat → List String → List ℚ → List (Bool × String)
  | [], _, _, _ => []
  | p :: rest, i, slugs, orders =>
    projectChecks sections p i slugs orders ++
      projectsChecks sections rest (i + 1) (p.slug :: slugs) (p.order.getD 0 :: orders)

/-- The full ordered rule list of the claim (see `sectionChecks`). -/
def validationChecks (c : Content) : List (Bool × String) :=
  (hasText c.site.title, "site.title is required.") ::
  (hasText c.site.description, "site.description is required.") ::
  (hasText c.site.canonicalBase, "site.canonicalBase is required.") ::
  (hasText c.site.ogImageDefault, "site.ogImageDefault is required.") ::
  (hasText c.site.profileImage, "site.profileImage is required.") ::
  (c.site.indexSections.length != 0, "site.indexSections must contain at least one section.") ::
  (sectionChecks c.site.indexSections 0 ++
    (isAbsUrl c.site.canonicalBase, "site.canonicalBase must start with http:// or https://.") ::
    (c.projects.length != 0, "projects must contain at least one item.") ::
    projectsChecks c.site.indexSections c.projects 0 [] [])

/-- The per-project invariants of the data model (spec §3), stated
independently of the validator. -/
def ValidProject (sections : List String) (p : Project) : Prop :=
  toText p.slug ≠ "" ∧ toText p.title ≠ "" ∧ toText p.summary ≠ "" ∧
  toText p.sectionName ≠ "" ∧ toText p.serviceIcon ≠ "" ∧ toText p.heroImage ≠ "" ∧
  p.sectionName ∈ sections ∧ slugOk p.slug = true ∧ p.order.isSome = true ∧
  p.tags ≠ [] ∧ p.ctas.length ≤ 2 ∧
  (∀ cta ∈ p.ctas, toText cta.label ≠ "" ∧ toText cta.url ≠ "") ∧
  2 ≤ p.facts.length ∧ p.facts.length ≤ 4 ∧ p.screens ≠ [] ∧
  5 ≤ p.contrib.length ∧ p.contrib.length ≤ 8

/-- The invariants of the data model (spec §3), stated independently of
the validator: every required site field nonempty, sections well formed,
canonical base an http(s) URL, at least one project, every project valid,
slugs globally distinct and orders globally distinct. -/
def ValidContent (c : Content) : Prop :=
  toText c.site.title ≠ "" ∧ toText c.site.description ≠ "" ∧
  toText c.site.canonicalBase ≠ "" ∧ toText c.site.ogImageDefault ≠ "" ∧
  toText c.site.profileImage ≠ "" ∧
  c.site.indexSections ≠ [] ∧ (∀ sec ∈ c.site.indexSections, toText sec ≠ "") ∧
  isAbsUrl c.site.canonicalBase = true ∧
  c.projects ≠ [] ∧
  (∀ p ∈ c.projects, ValidProject c.site.indexSections p) ∧
  (c.projects.map Project.slug).Nodup ∧
  (c.projects.map (fun p => p.order.getD 0)).Nodup

/-- The rendering context computed once per build by `buildSite`. -/
structure Context where
  basePath : String
  canonicalBase : String
  siteTitle : String
  siteDescription : String
  personName : String
  personUrl : String
deriving Repr, DecidableEq

/-- The six bento-grid spans of one card. -/
structure Layout where
  colDesktop : ℤ
  rowDesktop : ℤ
  colTablet : ℤ
  rowTablet : ℤ
  colMobile : ℤ
  rowMobile : ℤ
deriving Repr, DecidableEq

/-- The six `clampInt` computations at the head of the source
`buildProjectCard`. -/
def cardLayout (p : Project) : Layout :=
  let colDesktop := clampInt p.bento.colSpan 1 12 (if p.featured then 6 else 4)
  let rowDesktop := clampInt p.bento.rowSpan 1 6 (if p.featured then 2 else 1)
  let colTablet := clampInt p.bento.colSpanTablet 1 8 (Min.min colDesktop 4)
  let rowTablet := clampInt p.bento.rowSpanTablet 1 6 rowDesktop
  let colMobile := clampInt p.bento.colSpanMobile 1 4 4
  let rowMobile := clampInt p.bento.rowSpanMobile 1 6 (if 1 < rowDesktop then 2 else 1)
  ⟨colDesktop, rowDesktop, colTablet, rowTablet, colMobile, rowMobile⟩

/-- The `style` attribute value built from the six spans (the source
builds the six `--var:value` entries and joins them with `;`). -/
def cardStyle (L : Layout) : String :=
  String.intercalate ";" [
    "--col:" ++ toString L.colDesktop,
    "--row:" ++ toString L.rowDesktop,
    "--col-tablet:" ++ toString L.colTablet,
    "--row-tablet:" ++ toString L.rowTablet,
    "--col-mobile:" ++ toString L.colMobile,
    "--row-mobile:" ++ toString L.rowMobile]

/-- Source `build.js` `buildCtaLink`. -/
def buildCtaLink (cta : Cta) (className : String) : String :=
  let url := escapeAttr (toText cta.url)
  let label := escapeHtml (toText cta.label)
  "<a class=\"" ++ className ++ "\" href=\"" ++ url ++ "\"" ++ maybeExternalAttrs url ++
    ">" ++ label ++ "</a>"

/-- Source `build.js` `buildProjectCard`. -/
def buildProjectCard (p : Project) (context : Context) : String :=
  let style := cardStyle (cardLayout p)
  let projectPath := withBasePath context.basePath ("/projects/" ++ p.slug ++ "/")
  let serviceIcon := withBasePath context.basePath (toText p.serviceIcon)
  let heroImage := withBasePath context.basePath (toText p.heroImage)
  String.intercalate "\n" [
    "<a class=\"card bento-card\" href=\"" ++ escapeAttr projectPath ++ "\" style=\"" ++
      escapeAttr style ++ "\">",
    "  <div class=\"bento-card__body\">",
    "    <span class=\"bento-card__service\" aria-hidden=\"true\">",
    "      <img src=\"" ++ escapeAttr serviceIcon ++ "\" alt=\"\" loading=\"lazy\" decoding=\"async\" />",
    "    </span>",
    "    <h2 class=\"bento-card__title\">" ++ escapeHtml p.title ++ "</h2>",
    "    <p class=\"bento-card__summary\">" ++ escapeHtml p.summary ++ "</p>",
    "  </div>",
    "  <figure class=\"bento-card__media\">",
    "    <img src=\"" ++ escapeAttr heroImage ++ "\" alt=\"" ++ escapeAttr p.title ++
      " preview\" loading=\"lazy\" decoding=\"async\" />",
    "  </figure>",
    "</a>"]

/-- Keys of the section `Map` of `buildProjectSections` in insertion
order: the configured section order first (a JS `Map` keeps the first
insertion position of a repeated key), then unknown project sections in
first-occurrence order. -/
def sectionKeys (sectionOrder : List String) (projects : List Project) : List String :=
  projects.foldl
    (fun acc p =>
      let s := toText p.sectionName
      if acc.contains s then acc else acc ++ [s])
    (sectionOrder.foldl (fun acc s => if acc.contains s then acc else acc ++ [s]) [])

/-- Source `build.js` `buildProjectSections`. -/
def buildProjectSections (projects : List Project) (context : Context)
    (sectionOrder : List String) : String :=
  let keys := sectionKeys sectionOrder projects
  let secs := keys.enum.map (fun (sectionIndex, sectionName) =>
    let items := projects.filter (fun p => toText p.sectionName == sectionName)
    if items.isEmpty then ""
    else
      let sectionId := "project-section-" ++ toString (sectionIndex + 1) ++ "-" ++
        toSectionId sectionName
      let cards := String.intercalate "\n"
        (items.map (fun p => buildProjectCard p context))
      String.intercalate "\n" [
        "<section class=\"project-section\" aria-labelledby=\"" ++ escapeAttr sectionId ++ "\">",
        "  <h2 class=\"project-section__title\" id=\"" ++ escapeAttr sectionId ++ "\">" ++
          escapeHtml sectionName ++ "</h2>",
        "  <div class=\"bento-grid\" aria-label=\"" ++ escapeAttr (sectionName ++ " projects") ++
          "\">",
        cards,
        "  </div>",
        "</section>"])
  String.intercalate "\n" (secs.filter (fun s => s != ""))

/-- Source `build.js` `buildFactCards`. -/
def buildFactCards (p : Project) : String :=
  String.intercalate "\n" (p.facts.map (fun fact =>
    String.intercalate "\n" [
      "<article class=\"card fact-card\">",
      "  <dl>",
      "    <dt>" ++ escapeHtml fact.label ++ "</dt>",
      "    <dd>" ++ escapeHtml fact.value ++ "</dd>",
      "  </dl>",
      "</article>"]))

/-- Source `build.js` `buildScreen`. -/
def buildScreen (screen : Screen) (fallbackAlt : String) : String :=
  let source := escapeAttr (toText screen.src)
  let alt := escapeAttr (if toText screen.alt != "" then toText screen.alt else fallbackAlt)
  let aspect := escapeAttr (normalizeAspect screen.aspect)
  let fit := if toText screen.fit == "contain" then "contain" else "cover"
  let captionText := toText screen.caption
  String.intercalate "\n" (([
    "<article class=\"card screen\">",
    "  <figure class=\"screen-media\" style=\"--aspect:" ++ aspect ++ ";--fit:" ++ fit ++ ";\">",
    "    <img src=\"" ++ source ++ "\" alt=\"" ++ alt ++ "\" loading=\"lazy\" decoding=\"async\" />",
    "  </figure>",
    (if captionText != "" then "  <p class=\"screen-caption\">" ++ escapeHtml captionText ++ "</p>"
     else ""),
    "</article>"]).filter (fun s => s != ""))

/-- Source `build.js` `buildProjectJsonLd`. -/
def buildProjectJsonLd (p : Project) (context : Context) : Json :=
  let canonicalPath := withBasePath context.basePath ("/projects/" ++ p.slug ++ "/")
  let canonicalUrl := toAbsoluteUrl context.canonicalBase canonicalPath
  let imageUrl := toAbsoluteUrl context.canonicalBase (withBasePath context.basePath p.heroImage)
  let platform := p.facts.find? (fun item =>
    lowerList (toText item.label).data == "platform".data)
  let isApp := containsList "app".data
    (lowerList (p.title ++ " " ++ String.intercalate " " p.tags).data)
  let projectType := if isApp then "SoftwareApplication" else "CreativeWork"
  let work := Json.obj ([
    ("@type", Json.str projectType),
    ("name", Json.str p.title),
    ("description", Json.str (truncate p.summary 180)),
    ("image", Json.str imageUrl),
    ("url", Json.str canonicalUrl),
    ("keywords", Json.str (String.intercalate ", " p.tags)),
    ("creator", Json.obj [("@type", Json.str "Person"), ("name", Json.str context.personName)])] ++
    (match platform with
     | some item =>
       if isApp then
         [("operatingSystem", Json.str (toText item.value)),
          ("applicationCategory", Json.str "Design Case Study")]
       else []
     | none => []))
  Json.obj [
    ("@context", Json.str "https://schema.org"),
    ("@graph", Json.arr [
      Json.obj [
        ("@type", Json.str "Person"),
        ("name", Json.str context.personName),
        ("url", Json.str (if context.personUrl != "" then context.personUrl
          else toAbsoluteUrl context.canonicalBase (withBasePath context.basePath "/")))],
      Json.obj [
        ("@type", Json.str "WebSite"),
        ("name", Json.str context.siteTitle),
        ("description", Json.str context.siteDescription),
        ("url", Json.str (toAbsoluteUrl context.canonicalBase
          (withBasePath context.basePath "/")))],
      work])]

/-- The `designNotesSection` half of the source `buildOptionalSections`. -/
def buildDesignNotesSection (p : Project) : String :=
  let designNotes := p.designNotes.getD []
  if designNotes.isEmpty then ""
  else
    String.intercalate "\n" [
      "<section>",
      "  <h2 class=\"section-title\">Design Notes</h2>",
      "  <div class=\"note-grid\">",
      String.intercalate "\n" (designNotes.map (fun note =>
        String.intercalate "\n" [
          "    <article class=\"card note-card\">",
          "      <h3>" ++ escapeHtml note.heading ++ "</h3>",
          "      <p>" ++ escapeHtml note.body ++ "</p>",
          "    </article>"])),
      "  </div>",
      "</section>"]

/-- The `linksSection` half of the source `buildOptionalSections`. -/
def buildLinksSection (p : Project) : String :=
  let links := p.links.getD []
  if links.isEmpty then ""
  else
    String.intercalate "\n" [
      "<section>",
      "  <h2 class=\"section-title\">Links</h2>",
      "  <div class=\"links-grid\">",
      String.intercalate "\n" (links.map (fun link =>
        let linkUrl := escapeAttr (toText link.url)
        let note := toText link.note
        String.intercalate "\n" (([
          "    <article class=\"card link-card\">",
          "      <a class=\"inline-link\" href=\"" ++ linkUrl ++ "\"" ++
            maybeExternalAttrs linkUrl ++ ">" ++ escapeHtml link.label ++ "</a>",
          (if note != "" then "      <p>" ++ escapeHtml note ++ "</p>" else ""),
          "    </article>"]).filter (fun s => s != "")))),
      "  </div>",
      "</section>"]

/-- Source `build.js` `buildPagination`: `projects[index - 1]` is
`undefined` both for `index = 0` (JS index `-1`) and past the end. -/
def buildPagination (projects : List Project) (index : Nat) (context : Context) : String :=
  let prev := if index = 0 then none else projects.get? (index - 1)
  let next := projects.get? (index + 1)
  let homePath := withBasePath context.basePath "/"
  let prevMarkup := match prev with
    | some pr =>
      "<a href=\"" ++ escapeAttr (withBasePath context.basePath ("/projects/" ++ pr.slug ++ "/")) ++
        "\">← " ++ escapeHtml pr.title ++ "</a>"
    | none => "<span aria-hidden=\"true\"></span>"
  let nextMarkup := match next with
    | some nx =>
      "<a href=\"" ++ escapeAttr (withBasePath context.basePath ("/projects/" ++ nx.slug ++ "/")) ++
        "\">" ++ escapeHtml nx.title ++ " →</a>"
    | none => "<span aria-hidden=\"true\"></span>"
  let backMarkup := "<a href=\"" ++ escapeAttr homePath ++ "\">Back</a>"
  String.intercalate "\n" [
    "<span class=\"project-nav__slot\">" ++ prevMarkup ++ "</span>",
    "<span class=\"project-nav__slot\">" ++ backMarkup ++ "</span>",
    "<span class=\"project-nav__slot\">" ++ nextMarkup ++ "</span>"]

/-- Source `build.js` `buildProjectPage`.  The destructuring of the first
screen would throw in JS on an empty `screens` array (impossible after
validation); the model renders the empty string there. -/
def buildProjectPage (p : Project) (index : Nat) (projects : List Project)
    (template : String) (context : Context) : String :=
  let homePath := withBasePath context.basePath "/"
  let projectPath := withBasePath context.basePath ("/projects/" ++ p.slug ++ "/")
  let canonicalUrl := toAbsoluteUrl context.canonicalBase projectPath
  let ogImageUrl := toAbsoluteUrl context.canonicalBase
    (withBasePath context.basePath p.heroImage)
  let primaryCta := match p.ctas.head? with
    | some c0 => buildCtaLink c0 "button button--ghost"
    | none => ""
  let heroCtas := String.intercalate "\n" (p.ctas.enum.map (fun (ctaIndex, cta) =>
    buildCtaLink cta (if ctaIndex = 0 then "button" else "button button--ghost")))
  let tags := String.join (p.tags.map (fun tag =>
    "<span class=\"chip\">" ++ escapeHtml tag ++ "</span>"))
  let facts := buildFactCards p
  let screensWithBasePath := p.screens.map (fun screen =>
    { screen with src := withBasePath context.basePath screen.src })
  let primaryScreen := match screensWithBasePath.head? with
    | some firstScreen => buildScreen firstScreen (p.title ++ " screen")
    | none => ""
  let secondaryScreens := String.intercalate "\n"
    (screensWithBasePath.tail.map (fun screen => buildScreen screen (p.title ++ " screen")))
  let contribList := String.intercalate "\n" (p.contrib.map (fun item =>
    "<li>" ++ escapeHtml item ++ "</li>"))
  let pagination := buildPagination projects index context
  let pageTitle := p.title ++ " | " ++ context.siteTitle
  let metaDescription := truncate p.summary 160
  renderTemplate template [
    ("PAGE_TITLE", escapeHtml pageTitle),
    ("META_DESCRIPTION", escapeAttr metaDescription),
    ("CANONICAL_URL", escapeAttr canonicalUrl),
    ("OG_TITLE", escapeAttr p.title),
    ("OG_DESCRIPTION", escapeAttr metaDescription),
    ("OG_IMAGE", escapeAttr ogImageUrl),
    ("OG_URL", escapeAttr canonicalUrl),
    ("ASSET_PREFIX", context.basePath),
    ("JSON_LD", safeJsonLd (buildProjectJsonLd p context)),
    ("HOME_URL", escapeAttr homePath),
    ("TOPBAR_CTA", primaryCta),
    ("PROJECT_TITLE", escapeHtml p.title),
    ("PROJECT_SUMMARY", escapeHtml p.summary),
    ("PROJECT_TAGS", tags),
    ("HERO_CTAS", heroCtas),
    ("HERO_IMAGE", escapeAttr (withBasePath context.basePath p.heroImage)),
    ("HERO_ALT", escapeAttr (p.title ++ " hero image")),
    ("FACT_CARDS", facts),
    ("PRIMARY_SCREEN", primaryScreen),
    ("SECONDARY_SCREENS", secondaryScreens),
    ("CONTRIB_LIST", contribList),
    ("DESIGN_NOTES_SECTION", buildDesignNotesSection p),
    ("LINKS_SECTION", buildLinksSection p),
    ("PAGINATION", pagination)]

/-- Insert a project into a list sorted by ascending numeric order (the
comparator `Number(a.order) - Number(b.order)`; orders are distinct after
validation, so stability is immaterial). -/
def insertByOrder (p : Project) : List Project → List Project
  | [] => [p]
  | q :: rest =>
    if p.order.getD 0 < q.order.getD 0 then p :: q :: rest
    else q :: insertByOrder p rest

/-- The sort `[...projects].sort((a, b) => Number(a.order) - Number(b.order))`. -/
def sortProjects (l : List Project) : List Project :=
  l.foldr insertByOrder []

/-- One observable filesystem operation of the build. -/
inductive FsOp where
  | writeFile (path content : String)
  | rmDirRecursive (path : String)
  | mkDir (path : String)
deriving Repr, DecidableEq

/-- Source `build.js` `buildSite`, with the content document and the two
template files passed in (the source reads them from disk first) and the
filesystem side effects reified, in program order, as the returned list
of operations; paths are relative to the repository root.  A validation
failure propagates as `Except.error` before any operation exists. -/
def buildSiteOps (c : Content) (indexTemplate projectTemplate : String) :
    Except String (List FsOp) :=
  match validateContent c with
  | .error m => .error m
  | .ok _ =>
    let site := c.site
    let basePath := normalizeBasePath site.basePath
    let canonicalBase := stripTrailingSlashes (toText site.canonicalBase)
    let context : Context := {
      basePath := basePath,
      canonicalBase := canonicalBase,
      siteTitle := toText site.title,
      siteDescription := toText site.description,
      personName := if toText site.personName != "" then toText site.personName
        else toText site.title,
      personUrl := toText site.personUrl }
    let projects := sortProjects c.projects
    let sectionOrder := site.indexSections.map toText
    let projectSections := buildProjectSections projects context sectionOrder
    let homePath := withBasePath basePath "/"
    let homeCanonical := toAbsoluteUrl canonicalBase homePath
    let defaultOgImage := toAbsoluteUrl canonicalBase (withBasePath basePath site.ogImageDefault)
    let indexJsonLd := Json.obj [
      ("@context", Json.str "https://schema.org"),
      ("@graph", Json.arr [
        Json.obj [
          ("@type", Json.str "Person"),
          ("name", Json.str context.personName),
          ("url", Json.str (if context.personUrl != "" then context.personUrl
            else homeCanonical))],
        Json.obj [
          ("@type", Json.str "WebSite"),
          ("name", Json.str context.siteTitle),
          ("description", Json.str context.siteDescription),
          ("url", Json.str homeCanonical)]])]
    let indexHtml := renderTemplate indexTemplate [
      ("PAGE_TITLE", escapeHtml context.siteTitle),
      ("META_DESCRIPTION", escapeAttr (truncate context.siteDescription 160)),
      ("CANONICAL_URL", escapeAttr homeCanonical),
      ("OG_TITLE", escapeAttr context.siteTitle),
      ("OG_DESCRIPTION", escapeAttr (truncate context.siteDescription 160)),
      ("OG_IMAGE", escapeAttr defaultOgImage),
      ("OG_URL", escapeAttr homeCanonical),
      ("ASSET_PREFIX", basePath),
      ("JSON_LD", safeJsonLd indexJsonLd),
      ("SITE_TITLE", escapeHtml context.siteTitle),
      ("PERSON_NAME", escapeHtml context.personName),
      ("PROFILE_IMAGE", escapeAttr (withBasePath basePath site.profileImage)),
      ("SITE_DESCRIPTION", escapeHtml context.siteDescription),
      ("PROJECT_SECTIONS", projectSections)]
    Except.ok ([
      FsOp.writeFile "index.html" indexHtml,
      FsOp.rmDirRecursive "projects",
      FsOp.mkDir "projects"] ++
      projects.enum.flatMap (fun (index, p) =>
        [FsOp.mkDir ("projects/" ++ p.slug),
         FsOp.writeFile ("projects/" ++ p.slug ++ "/index.html")
           (buildProjectPage p index projects projectTemplate context)]))

namespace Variant

/-- Variant script `escapeHtml`: the same five entity replacements, but
with no trimming (`String(str)` only). -/
def escapeHtml (str : String) : String :=
  ⟨escapeChain str.data⟩

/-- Drop one trailing slash: the variant idiom
`site.canonicalBase.replace(/\/$/, '')` (note: not `\/+$`). -/
def stripOneTrailingSlash (s : String) : String :=
  match s.data.reverse with
  | '/' :: rest => ⟨rest.reverse⟩
  | _ => s

/-- Case-sensitive test for the variant regex `^https?:\/\//` (the
variant omits the `i` flag). -/
def isAbsUrlCaseSensitive (s : String) : Bool :=
  "http://".data.isPrefixOf s.data || "https://".data.isPrefixOf s.data

/-- Variant script `withBaseUrl` (the script closes over the module-level
`site`; here it is passed explicitly). -/
def withBaseUrl (site : Site) (url : String) : String :=
  if url = "" then ""
  else if isAbsUrlCaseSensitive url then url
  else
    stripOneTrailingSlash site.canonicalBase ++
      (if "/".data.isPrefixOf url.data then "" else "/") ++ url

/-- Variant script `buildLinks`: every link card unconditionally carries
`target="_blank" rel="noreferrer"` and interpolates `link.url` into the
`href` attribute without any escaping.  The template-literal whitespace is
reproduced verbatim. -/
def buildLinks (links : List LinkItem) : String :=
  if links.isEmpty then ""
  else
    let cards := String.join (links.map (fun link =>
      "\n      <a class=\"card link-card\" href=\"" ++ link.url ++
        "\" target=\"_blank\" rel=\"noreferrer\">\n        <strong>" ++
        escapeHtml link.label ++ "</strong>\n        " ++
        (if link.note != "" then "<span>" ++ escapeHtml link.note ++ "</span>" else "") ++
        "\n      </a>\n    "))
    "\n    <section class=\"section\">\n      <h2>Links</h2>\n      <div class=\"links-grid\">" ++
      cards ++ "</div>\n    </section>\n  "

/-- Variant script `buildProjectJsonLd`: a Person and a CreativeWork
object serialized with `JSON.stringify(data, null, 2)` and, unlike the
main script, no angle-bracket escaping. -/
def buildProjectJsonLd (site : Site) (p : Project) : String :=
  let base := stripOneTrailingSlash site.canonicalBase
  jsonStringifyPretty (Json.arr [
    Json.obj [
      ("@context", Json.str "https://schema.org"),
      ("@type", Json.str "Person"),
      ("name", Json.str site.title),
      ("url", Json.str base)],
    Json.obj [
      ("@context", Json.str "https://schema.org"),
      ("@type", Json.str "CreativeWork"),
      ("name", Json.str p.title),
      ("description", Json.str p.summary),
      ("url", Json.str (base ++ "/projects/" ++ p.slug ++ "/")),
      ("image", Json.str (withBaseUrl site p.heroImage))]])

end Variant

/-- Modelled from the spec: the renderer the template-renderer claim
describes, in which "a replacement value inserted for one key is never
itself re-scanned for tokens of any key in the mapping".  One left-to-right
scan of the template; wherever the token of some mapping key starts (first
matching key wins), the key's value is emitted verbatim and the scan
resumes after the token, never inside the emitted value; all other
characters pass through. -/
def renderNoRescanFuel (m : List (String × String)) : Nat → List Char → List Char
  | _, [] => []
  | 0, s => s
  | fuel + 1, c :: t =>
    match m.find? (fun kv => (tokenOf kv.1).data.isPrefixOf (c :: t)) with
    | some kv =>
      kv.2.data ++ renderNoRescanFuel m fuel ((c :: t).drop (tokenOf kv.1).data.length)
    | none => c :: renderNoRescanFuel m fuel t

/-- List-level entry point of the no-rescan renderer (fuel `s.length`
suffices: a token is nonempty, so every step consumes a character). -/
def renderNoRescanList (m : List (String × String)) (s : List Char) : List Char :=
  renderNoRescanFuel m s.length s

/-- String wrapper for `renderNoRescanList` (see there). -/
def renderTemplateNoRescan (template : String) (replacements : List (String × String)) : String :=
  ⟨renderNoRescanList replacements template.data⟩

/-- Per-character view of the five-replacement escape chain: the entity a
single character expands to. -/
def escChar (c : Char) : List Char :=
  if c = '&' then "&amp;".data
  else if c = '<' then "&lt;".data
  else if c = '>' then "&gt;".data
  else if c = '"' then "&quot;".data
  else if c = aposChar then "&#39;".data
  else [c]

/-- The five entity bodies that may legitimately follow an ampersand in
escaped output. -/
def entityTails : List (List Char) :=
  ["amp;".data, "lt;".data, "gt;".data, "quot;".data, "#39;".data]

/-- Scanner checking that every ampersand in a character list starts one
of the five entities `&amp; &lt; &gt; &quot; &#39;`. -/
def ampOk : List Char → Bool
  | [] => true
  | c :: t =>
    (if c = '&' then entityTails.any (fun e => e.isPrefixOf t) else true) && ampOk t

/-- The four characters that must never appear raw in escaped output. -/
def rawSpecials : List Char := ['<', '>', '"', aposChar]

/-- Source `build.js` `escapeHtml` applied to a possibly-missing value
(`toText` coerces `null`/`undefined` to `""` first). -/
def escapeHtmlOpt (v : Option String) : String :=
  ⟨escapeChain (toTextOpt v).data⟩

/-- A minimal well-formed project used to instantiate theorems at
concrete inputs. -/
def demoProject : Project := {
  slug := "demo"
  title := "Demo"
  summary := "A demo project."
  sectionName := "Work"
  serviceIcon := "/icons/demo.svg"
  heroImage := "/img/demo.png"
  order := some 1
  tags := ["design"]
  ctas := []
  facts := [⟨"Platform", "iOS"⟩, ⟨"Year", "2024"⟩]
  screens := [⟨"/img/s1.png", "alt", "", "", ""⟩]
  contrib := ["a", "b", "c", "d", "e"] }

/-- A featured project with an explicit oversized desktop column hint. -/
def featuredProject : Project :=
  { demoProject with
    slug := "feat"
    order := some 2
    featured := true
    bento := { colSpan := some 20 } }

/-- A minimal well-formed site object. -/
def demoSite : Site := {
  title := "T"
  description := "D"
  canonicalBase := "https://example.com"
  ogImageDefault := "/og.png"
  profileImage := "/me.png"
  indexSections := ["Work"] }

/-- A content document whose two projects share the slug `demo`. -/
def dupSlugContent : Content :=
  { site := demoSite, projects := [demoProject, { demoProject with order := some 2 }] }

/-! Theorems. -/

/-- Both bounds of `clampInt` hold whenever the fallback lies between
them. -/
theorem clampInt_mem (v : Option ℚ) (lo hi fb : ℤ) (hlo : lo ≤ hi)
    (hfb : lo ≤ fb ∧ fb ≤ hi) :
    lo ≤ clampInt v lo hi fb ∧ clampInt v lo hi fb ≤ hi := by
  cases v with
  | none => simpa [clampInt] using hfb
  | some q =>
    unfold clampInt
    exact ⟨le_max_left _ _, max_le hlo (min_le_left _ _)⟩

/-- Two strings with equal character data are equal. -/
theorem string_data_eq {a b : String} (h : a.data = b.data) : a = b := by
  cases a; cases b; simp_all

/-- A string is empty iff its character data is. -/
theorem string_eq_empty_iff (s : String) : s = "" ↔ s.data = [] := by
  constructor
  · intro h; rw [h]
  · intro h; exact string_data_eq (by rw [h])

/-- The head surviving `dropWhile p` falsifies `p`. -/
theorem head?_dropWhile_false (p : Char → Bool) (l : List Char) :
    ∀ c, (l.dropWhile p).head? = some c → p c = false := by
  induction l with
  | nil => intro c h; simp [List.dropWhile] at h
  | cons a t ih =>
    intro c h
    rw [List.dropWhile_cons] at h
    by_cases hpa : p a
    · rw [if_pos hpa] at h; exact ih c h
    · rw [if_neg hpa] at h
      simp only [List.head?_cons, Option.some.injEq] at h
      subst h
      simpa using hpa

/-- A list whose head falsifies `p` is unchanged by `dropWhile p`. -/
theorem dropWhile_eq_self_of_head? (p : Char → Bool) (l : List Char)
    (h : ∀ c, l.head? = some c → p c = false) : l.dropWhile p = l := by
  cases l with
  | nil => rfl
  | cons a t =>
    rw [List.dropWhile_cons, if_neg]
    simp [h a rfl]

/-- JavaScript `trim` is idempotent (list level). -/
theorem jsTrimList_idem (l : List Char) : jsTrimList (jsTrimList l) = jsTrimList l := by
  unfold jsTrimList
  have h1 : ((((l.dropWhile isJsWs).reverse.dropWhile isJsWs).reverse).dropWhile isJsWs) =
      ((l.dropWhile isJsWs).reverse.dropWhile isJsWs).reverse := by
    apply dropWhile_eq_self_of_head?
    intro c hc
    rw [List.head?_reverse] at hc
    rcases List.dropWhile_suffix (l := (l.dropWhile isJsWs).reverse) isJsWs with ⟨t, ht⟩
    have hBne : (l.dropWhile isJsWs).reverse.dropWhile isJsWs ≠ [] := by
      intro hB0; rw [hB0] at hc; simp at hc
    have hlast : (l.dropWhile isJsWs).reverse.getLast? = some c := by
      rw [← ht, List.getLast?_append_of_ne_nil t hBne]; exact hc
    rw [List.getLast?_reverse] at hlast
    exact head?_dropWhile_false isJsWs l c hlast
  rw [h1, List.reverse_reverse]
  have h2 : ((l.dropWhile isJsWs).reverse.dropWhile isJsWs).dropWhile isJsWs =
      (l.dropWhile isJsWs).reverse.dropWhile isJsWs := by
    apply dropWhile_eq_self_of_head?
    intro c hc
    exact head?_dropWhile_false isJsWs (l.dropWhile isJsWs).reverse c hc
  rw [h2]

/-- JavaScript `trim` is idempotent. -/
theorem jsTrim_idem (s : String) : jsTrim (jsTrim s) = jsTrim s :=
  string_data_eq (by simp [jsTrim, jsTrimList_idem])

/-- C10: `escapeHtml` (through `toText`) coerces a missing value to the
empty string and trims surrounding whitespace before escaping, so
escaping a string and escaping its trimmed form agree, and rendered text
never keeps surrounding whitespace even when no special character is
present. -/
theorem escapeHtml_trims_before_escaping :
    (∀ s : String, escapeHtml s = escapeHtml (jsTrim s)) ∧
    escapeHtmlOpt none = "" ∧
    escapeHtml "  plain  " = "plain" := by
  refine ⟨fun s => ?_, by decide, by decide⟩
  unfold escapeHtml toText
  rw [jsTrim_idem]

/-- C4 counterexample: `truncate` does not return its argument unchanged
when the trimmed length is within the limit (it returns the trimmed
string), and at limit 0 the result is the single ellipsis, which exceeds
the limit. -/
theorem truncate_claim_false :
    truncate " a " 5 ≠ " a " ∧ 0 < (truncate "abc" 0).length := by
  exact ⟨by decide, by decide⟩

/-- C4 (amended): `truncate s n` returns the trimmed string when its
length is at most `n`; otherwise it returns the first `n − 1` trimmed
characters followed by one ellipsis, giving length `max n 1`; hence for
every positive limit the result never exceeds `n` characters, and
`truncate "abcdefgh" 5 = "abcd…"` with length 5. -/
theorem truncate_spec (s : String) (n : Nat) :
    ((jsTrim s).length ≤ n → truncate s n = jsTrim s) ∧
    (n < (jsTrim s).length →
      truncate s n = ⟨(jsTrim s).data.take (n - 1)⟩ ++ "…" ∧
      (truncate s n).length = Max.max n 1) ∧
    (1 ≤ n → (truncate s n).length ≤ n) := by
  refine ⟨fun h => ?_, fun h => ⟨?_, ?_⟩, fun h1 => ?_⟩
  · simp only [truncate, toText]
    rw [if_pos h]
  · simp only [truncate, toText]
    rw [if_neg (by omega)]
  · simp only [truncate, toText]
    rw [if_neg (by omega), String.length_append]
    have ht : ((jsTrim s).data.take (n - 1)).length = n - 1 := by
      rw [List.length_take]
      have : (jsTrim s).length = (jsTrim s).data.length := rfl
      omega
    have : (String.mk ((jsTrim s).data.take (n - 1))).length = n - 1 := ht
    rw [this]
    have : ("…" : String).length = 1 := rfl
    rw [this]
    omega
  · by_cases h : (jsTrim s).length ≤ n
    · simp only [truncate, toText]
      rw [if_pos h]
      omega
    · simp only [truncate, toText]
      rw [if_neg h, String.length_append]
      have ht : ((jsTrim s).data.take (n - 1)).length = n - 1 := by
        rw [List.length_take]
        have : (jsTrim s).length = (jsTrim s).data.length := rfl
        omega
      have h2 : (String.mk ((jsTrim s).data.take (n - 1))).length = n - 1 := ht
      rw [h2]
      have h3 : ("…" : String).length = 1 := rfl
      rw [h3]
      omega

/-- C4 witness: the amended theorem applied at `"abcdefgh"`, limit 5. -/
theorem truncate_spec_witness :
    truncate "abcdefgh" 5 = "abcd…" ∧ (truncate "abcdefgh" 5).length = 5 := by
  have h := (truncate_spec "abcdefgh" 5).2.1 (by decide)
  refine ⟨?_, ?_⟩
  · rw [h.1]; decide
  · rw [h.2]; decide

/-- C6: base-path normalization collapses `""` and `"/"` to the empty
prefix and gives `"sub"`/`"/sub/"` a single leading slash and no trailing
slash; `withBasePath "/sub" "/x" = "/sub/x"`; and any URL matching
`^https?://` case-insensitively passes through both `withBasePath` and
`toAbsoluteUrl` unchanged. -/
theorem basePath_resolution_spec :
    normalizeBasePath "" = "" ∧ normalizeBasePath "/" = "" ∧
    normalizeBasePath "sub" = "/sub" ∧ normalizeBasePath "/sub/" = "/sub" ∧
    withBasePath "/sub" "/x" = "/sub/x" ∧
    (∀ b cb u : String, isAbsUrl u = true →
      withBasePath b u = u ∧ toAbsoluteUrl cb u = u) := by
  refine ⟨by decide, by decide, by decide, by decide, by decide, fun b cb u hu => ⟨?_, ?_⟩⟩
  · unfold withBasePath; rw [if_pos hu]
  · unfold toAbsoluteUrl; rw [if_pos hu]

/-- C6 witness: an absolute URL with mixed-case scheme is untouched by
both path transformations. -/
theorem basePath_resolution_witness :
    isAbsUrl "HTTPS://Example.com/x" = true ∧
    withBasePath "/sub" "HTTPS://Example.com/x" = "HTTPS://Example.com/x" ∧
    toAbsoluteUrl "http://c/" "HTTPS://Example.com/x" = "HTTPS://Example.com/x" := by
  have h := basePath_resolution_spec.2.2.2.2.2 "/sub" "http://c/" "HTTPS://Example.com/x"
    (by decide)
  exact ⟨by decide, h.1, h.2⟩

/-- C5: the six spans derived for a project card — defaults 6/2 when
featured and 4/1 otherwise on desktop, tablet defaults `min(col, 4)` and
the desktop row, mobile defaults 4 and 2-if-tall-else-1; a missing (or
non-finite) hint falls back to its default, a finite hint is floored then
clamped, and every span lands in its breakpoint bounds; an explicit
`colSpan` of 20 clamps to 12. -/
theorem cardLayout_spec (p : Project) :
    (p.bento.colSpan = none → (cardLayout p).colDesktop = if p.featured then 6 else 4) ∧
    (∀ q, p.bento.colSpan = some q →
      (cardLayout p).colDesktop = Max.max 1 (Min.min 12 (Rat.floor q))) ∧
    (p.bento.rowSpan = none → (cardLayout p).rowDesktop = if p.featured then 2 else 1) ∧
    (∀ q, p.bento.rowSpan = some q →
      (cardLayout p).rowDesktop = Max.max 1 (Min.min 6 (Rat.floor q))) ∧
    (p.bento.colSpanTablet = none →
      (cardLayout p).colTablet = Min.min (cardLayout p).colDesktop 4) ∧
    (∀ q, p.bento.colSpanTablet = some q →
      (cardLayout p).colTablet = Max.max 1 (Min.min 8 (Rat.floor q))) ∧
    (p.bento.rowSpanTablet = none → (cardLayout p).rowTablet = (cardLayout p).rowDesktop) ∧
    (∀ q, p.bento.rowSpanTablet = some q →
      (cardLayout p).rowTablet = Max.max 1 (Min.min 6 (Rat.floor q))) ∧
    (p.bento.colSpanMobile = none → (cardLayout p).colMobile = 4) ∧
    (∀ q, p.bento.colSpanMobile = some q →
      (cardLayout p).colMobile = Max.max 1 (Min.min 4 (Rat.floor q))) ∧
    (p.bento.rowSpanMobile = none →
      (cardLayout p).rowMobile = if 1 < (cardLayout p).rowDesktop then 2 else 1) ∧
    (∀ q, p.bento.rowSpanMobile = some q →
      (cardLayout p).rowMobile = Max.max 1 (Min.min 6 (Rat.floor q))) ∧
    (1 ≤ (cardLayout p).colDesktop ∧ (cardLayout p).colDesktop ≤ 12) ∧
    (1 ≤ (cardLayout p).rowDesktop ∧ (cardLayout p).rowDesktop ≤ 6) ∧
    (1 ≤ (cardLayout p).colTablet ∧ (cardLayout p).colTablet ≤ 8) ∧
    (1 ≤ (cardLayout p).rowTablet ∧ (cardLayout p).rowTablet ≤ 6) ∧
    (1 ≤ (cardLayout p).colMobile ∧ (cardLayout p).colMobile ≤ 4) ∧
    (1 ≤ (cardLayout p).rowMobile ∧ (cardLayout p).rowMobile ≤ 6) ∧
    (p.bento.colSpan = some 20 → (cardLayout p).colDesktop = 12) := by
  have hcd : 1 ≤ (cardLayout p).colDesktop ∧ (cardLayout p).colDesktop ≤ 12 := by
    refine clampInt_mem _ _ _ _ (by decide) ?_
    cases p.featured <;> simp
  have hrd : 1 ≤ (cardLayout p).rowDesktop ∧ (cardLayout p).rowDesktop ≤ 6 := by
    refine clampInt_mem _ _ _ _ (by decide) ?_
    cases p.featured <;> simp
  have hct : 1 ≤ (cardLayout p).colTablet ∧ (cardLayout p).colTablet ≤ 8 := by
    refine clampInt_mem _ _ _ _ (by decide) ?_
    constructor
    · exact le_min hcd.1 (by decide)
    · exact le_trans (min_le_right _ _) (by decide)
  have hrt : 1 ≤ (cardLayout p).rowTablet ∧ (cardLayout p).rowTablet ≤ 6 := by
    exact clampInt_mem _ _ _ _ (by decide) hrd
  have hcm : 1 ≤ (cardLayout p).colMobile ∧ (cardLayout p).colMobile ≤ 4 := by
    exact clampInt_mem _ _ _ _ (by decide) (by constructor <;> decide)
  have hrm : 1 ≤ (cardLayout p).rowMobile ∧ (cardLayout p).rowMobile ≤ 6 := by
    refine clampInt_mem _ _ _ _ (by decide) ?_
    constructor <;> (split <;> (first | decide | (split <;> decide)))
  refine ⟨fun h => by simp [cardLayout, clampInt, h],
    fun q h => by simp [cardLayout, clampInt, h],
    fun h => by simp [cardLayout, clampInt, h],
    fun q h => by simp [cardLayout, clampInt, h],
    fun h => by simp [cardLayout, clampInt, h],
    fun q h => by simp [cardLayout, clampInt, h],
    fun h => by simp [cardLayout, clampInt, h],
    fun q h => by simp [cardLayout, clampInt, h],
    fun h => by simp [cardLayout, clampInt, h],
    fun q h => by simp [cardLayout, clampInt, h],
    fun h => by simp [cardLayout, clampInt, h],
    fun q h => by simp [cardLayout, clampInt, h],
    hcd, hrd, hct, hrt, hcm, hrm,
    fun h => by simp [cardLayout, clampInt, h]; decide⟩

/-- C5 witness: the theorem applied at a featured project carrying an
explicit `colSpan` hint of 20 (clamped to 12) and at a plain project
(defaults 4 and 1). -/
theorem cardLayout_spec_witness :
    (cardLayout featuredProject).colDesktop = 12 ∧
    (cardLayout featuredProject).rowDesktop = 2 ∧
    (cardLayout demoProject).colDesktop = 4 ∧
    (cardLayout demoProject).rowDesktop = 1 := by
  obtain ⟨-, -, h3, -, -, -, -, -, -, -, -, -, -, -, -, -, -, -, h20⟩ :=
    cardLayout_spec featuredProject
  obtain ⟨g1, -, g3, -, -, -, -, -, -, -, -, -, -, -, -, -, -, -, -⟩ :=
    cardLayout_spec demoProject
  refine ⟨h20 rfl, ?_, ?_, ?_⟩
  · rw [h3 rfl]; decide
  · rw [g1 rfl]; decide
  · rw [g3 rfl]; decide

/-- A pattern-free list is unchanged by the replacement scan, for any
fuel. -/
theorem replaceAllFuel_of_not_contains (pat repl : List Char) :
    ∀ (s : List Char) (fuel : Nat), containsList pat s = false →
      replaceAllFuel pat repl fuel s = s := by
  intro s
  induction s with
  | nil => intro fuel h; cases fuel <;> rfl
  | cons c t ih =>
    intro fuel h
    simp only [containsList, Bool.or_eq_false_iff] at h
    cases fuel with
    | zero => rfl
    | succ fuel =>
      rw [replaceAllFuel, if_neg (by simp [h.1]), ih fuel h.2]

/-- A pattern-free string is unchanged by `replaceAll`. -/
theorem replaceAll_of_not_contains (s pat repl : String)
    (h : containsStr pat s = false) : replaceAll s pat repl = s :=
  string_data_eq (replaceAllFuel_of_not_contains pat.data repl.data s.data s.data.length h)

/-- Replacing a nonempty pattern inside the pattern itself yields the
replacement verbatim: the single pass never re-scans the value it has
just inserted, even when that value contains the pattern again. -/
theorem replaceAll_self (pat repl : String) (h : pat ≠ "") :
    replaceAll pat pat repl = repl := by
  apply string_data_eq
  have hne : pat.data ≠ [] := fun h0 => h (string_eq_empty_iff pat |>.mpr h0)
  show replaceAllFuel pat.data repl.data pat.data.length pat.data = repl.data
  rcases hd : pat.data with _ | ⟨c, t⟩
  · exact absurd hd hne
  · simp only [List.length_cons]
    rw [replaceAllFuel, if_pos ⟨by simp, by simp [List.isPrefixOf_iff_prefix]⟩,
      List.drop_length]
    have hnil : ∀ fuel, replaceAllFuel (c :: t) repl.data fuel [] = [] := by
      intro fuel; cases fuel <;> rfl
    rw [hnil, List.append_nil]

/-- C3 counterexample: a replacement value inserted for an earlier key is
re-scanned by a later key's pass — the source renderer turns `{{A}}` into
`x` under the mapping `A ↦ {{B}}, B ↦ x`, while a renderer that never
re-scans inserted values (as the claim describes) leaves `{{B}}`. -/
theorem renderTemplate_claim_false :
    renderTemplate "\x7b\x7bA\x7d\x7d" [("A", "\x7b\x7bB\x7d\x7d"), ("B", "x")] = "x" ∧
    renderTemplateNoRescan "\x7b\x7bA\x7d\x7d" [("A", "\x7b\x7bB\x7d\x7d"), ("B", "x")] =
      "\x7b\x7bB\x7d\x7d" ∧
    ("x" : String) ≠ "\x7b\x7bB\x7d\x7d" :=
  ⟨by decide, by decide, by decide⟩

/-- C3 (amended): `renderTemplate` performs one full `split`/`join` pass
per mapping key, in mapping order; within one key's pass the inserted
value is not re-scanned for that key's token (replacing a token by a
value containing the same token leaves the value verbatim), and a
template containing no occurrence of a key's token is unchanged by that
key's pass — but values inserted for earlier keys are scanned by the
passes of later keys, so tokens of later keys inside replacement values
are substituted (claim's "never re-scanned for tokens of any key" fails,
see the counterexample). -/
theorem renderTemplate_spec :
    (∀ tpl : String, renderTemplate tpl [] = tpl) ∧
    (∀ (tpl k v : String) (rest : List (String × String)),
      renderTemplate tpl ((k, v) :: rest) =
        renderTemplate (replaceAll tpl (tokenOf k) v) rest) ∧
    (∀ s k v : String, containsStr (tokenOf k) s = false →
      replaceAll s (tokenOf k) v = s) ∧
    (∀ k v : String, replaceAll (tokenOf k) (tokenOf k) v = v) := by
  refine ⟨fun _ => rfl, fun _ _ _ _ => rfl,
    fun s k v h => replaceAll_of_not_contains s (tokenOf k) v h,
    fun k v => replaceAll_self (tokenOf k) v ?_⟩
  intro h0
  have := (string_eq_empty_iff (tokenOf k)).mp h0
  simp [tokenOf, String.data_append] at this

/-- C3 witness: the amended theorem's pass-through part applied at a
token-free template. -/
theorem renderTemplate_spec_witness :
    containsStr (tokenOf "K") "abc" = false ∧ replaceAll "abc" (tokenOf "K") "v" = "abc" :=
  ⟨by decide, renderTemplate_spec.2.2.1 "abc" "K" "v" (by decide)⟩

/-- The escape chain processes one character at a time. -/
theorem escapeChain_cons (c : Char) (l : List Char) :
    escapeChain (c :: l) = escChar c ++ escapeChain l := by
  by_cases h1 : c = '&'
  · subst h1; simp +decide [escapeChain, escChar, replaceChar]
  · by_cases h2 : c = '<'
    · subst h2; simp +decide [escapeChain, escChar, replaceChar]
    · by_cases h3 : c = '>'
      · subst h3; simp +decide [escapeChain, escChar, replaceChar]
      · by_cases h4 : c = '"'
        · subst h4; simp +decide [escapeChain, escChar, replaceChar, h1, h2, h3]
        · by_cases h5 : c = aposChar
          · subst h5; simp +decide [escapeChain, escChar, replaceChar, h1, h2, h3, h4]
          · simp [escapeChain, escChar, replaceChar, h1, h2, h3, h4, h5]

/-- No escaped block contains a raw special character. -/
theorem escChar_no_raw (c : Char) :
    (escChar c).all (fun x => !(rawSpecials.contains x)) = true := by
  unfold escChar
  by_cases h1 : c = '&'
  · simp [h1]; decide
  · by_cases h2 : c = '<'
    · simp [h1, h2]; decide
    · by_cases h3 : c = '>'
      · simp [h1, h2, h3]; decide
      · by_cases h4 : c = '"'
        · simp [h1, h2, h3, h4]; decide
        · by_cases h5 : c = aposChar
          · simp [h1, h2, h3, h4, h5]; decide
          · simp [h1, h2, h3, h4, h5, rawSpecials]

/-- Escaped output never contains a raw `<`, `>`, `"` or apostrophe. -/
theorem escapeChain_no_raw (l : List Char) :
    (escapeChain l).all (fun x => !(rawSpecials.contains x)) = true := by
  induction l with
  | nil => decide
  | cons c t ih =>
    rw [escapeChain_cons, List.all_append]
    exact Bool.and_eq_true _ _ |>.mpr ⟨escChar_no_raw c, ih⟩

/-- A list is always a `isPrefixOf` of itself followed by anything. -/
theorem isPrefixOf_append_self (e rest : List Char) : e.isPrefixOf (e ++ rest) = true := by
  rw [List.isPrefixOf_iff_prefix]
  exact List.prefix_append e rest

/-- Prepending one escaped block preserves the entity discipline. -/
theorem ampOk_escChar_append (c : Char) (rest : List Char) (h : ampOk rest = true) :
    ampOk (escChar c ++ rest) = true := by
  unfold escChar
  by_cases h1 : c = '&'
  · simp [h1, ampOk, entityTails, isPrefixOf_append_self, h]
  · by_cases h2 : c = '<'
    · simp [h1, h2, ampOk, entityTails, isPrefixOf_append_self, h]
    · by_cases h3 : c = '>'
      · simp [h1, h2, h3, ampOk, entityTails, isPrefixOf_append_self, h]
      · by_cases h4 : c = '"'
        · simp [h1, h2, h3, h4, ampOk, entityTails, isPrefixOf_append_self, h]
        · by_cases h5 : c = aposChar
          · simp [h1, h2, h3, h4, h5, ampOk, entityTails, isPrefixOf_append_self, h]
          · simp [h1, h2, h3, h4, h5, ampOk, h]

/-- Every ampersand of escaped output starts one of the five entities. -/
theorem escapeChain_ampOk (l : List Char) : ampOk (escapeChain l) = true := by
  induction l with
  | nil => decide
  | cons c t ih =>
    rw [escapeChain_cons]
    exact ampOk_escChar_append c _ ih

/-- C7 counterexample: in the variant script a link URL reaches the
`href` attribute of the rendered links section without passing through
the HTML escaping — the fragment contains the raw quote-carrying URL and
not its escaped form — so not every piece of user-authored text rendered
into an attribute value is escaped. -/
theorem escaping_discipline_claim_false :
    containsStr "href=\"a\"b\"" (Variant.buildLinks [⟨"l", "a\"b", ""⟩]) = true ∧
    containsStr (escapeHtml "a\"b") (Variant.buildLinks [⟨"l", "a\"b", ""⟩]) = false :=
  ⟨by decide, by decide⟩

/-- C7 (amended): `escapeHtml` replaces each of `& < > " '` by its HTML
entity, so its output contains no raw `<`, `>`, `"` or `'` and contains
`&` only as the start of one of the five entities; the fragment builders
of the main build script route user-authored text through it, but the
variant script interpolates CTA and link URLs into `href` attributes
unescaped (see the counterexample). -/
theorem escapeHtml_entities_spec (s : String) :
    (escapeHtml s).data.all (fun x => !(rawSpecials.contains x)) = true ∧
    ampOk (escapeHtml s).data = true ∧
    (Variant.escapeHtml s).data.all (fun x => !(rawSpecials.contains x)) = true ∧
    ampOk (Variant.escapeHtml s).data = true := by
  refine ⟨?_, ?_, ?_, ?_⟩
  · exact escapeChain_no_raw (toText s).data
  · exact escapeChain_ampOk (toText s).data
  · exact escapeChain_no_raw s.data
  · exact escapeChain_ampOk s.data

/-- C8 counterexample: the variant script adds `target="_blank"` (with
`rel="noreferrer"`, not `noreferrer noopener`) to every rendered link —
including an internal URL that does not match `^https?://`, which the
claim says must get no such attributes. -/
theorem external_attrs_claim_false :
    isAbsUrl "/docs" = false ∧
    containsStr " target=\"_blank\"" (Variant.buildLinks [⟨"Docs", "/docs", ""⟩]) = true ∧
    containsStr "noopener" (Variant.buildLinks [⟨"Docs", "/docs", ""⟩]) = false :=
  ⟨by decide, by decide, by decide⟩

/-- C8 (amended): in the main build script, `maybeExternalAttrs` yields
` target="_blank" rel="noreferrer noopener"` exactly when the URL matches
`^https?://` case-insensitively and the empty string otherwise, so an
anchor built by `buildCtaLink` (the links section uses the same helper)
carries those attributes iff its URL is external and is rendered with no
target/rel markup otherwise; the variant script instead hard-codes
`target="_blank" rel="noreferrer"` on every link. -/
theorem external_attrs_spec (u : String) (cta : Cta) (cls : String) :
    (maybeExternalAttrs u = " target=\"_blank\" rel=\"noreferrer noopener\"" ↔
      isAbsUrl u = true) ∧
    (maybeExternalAttrs u = "" ↔ isAbsUrl u = false) ∧
    (isAbsUrl (escapeAttr (toText cta.url)) = true →
      buildCtaLink cta cls =
        "<a class=\"" ++ cls ++ "\" href=\"" ++ escapeAttr (toText cta.url) ++ "\"" ++
          " target=\"_blank\" rel=\"noreferrer noopener\"" ++ ">" ++
          escapeHtml (toText cta.label) ++ "</a>") ∧
    (isAbsUrl (escapeAttr (toText cta.url)) = false →
      buildCtaLink cta cls =
        "<a class=\"" ++ cls ++ "\" href=\"" ++ escapeAttr (toText cta.url) ++ "\"" ++ "" ++
          ">" ++ escapeHtml (toText cta.label) ++ "</a>") := by
  refine ⟨?_, ?_, fun h => ?_, fun h => ?_⟩
  · unfold maybeExternalAttrs
    by_cases h : isAbsUrl u <;> simp [h]
  · unfold maybeExternalAttrs
    by_cases h : isAbsUrl u <;> simp [h]
  · simp [buildCtaLink, maybeExternalAttrs, h, String.append_assoc]
  · simp [buildCtaLink, maybeExternalAttrs, h, String.append_assoc]

/-- C8 witness: the amended theorem applied to an external CTA (attributes
present) and an internal CTA (no attributes). -/
theorem external_attrs_spec_witness :
    buildCtaLink ⟨"Open", "https://x.y/"⟩ "button" =
      "<a class=\"" ++ "button" ++ "\" href=\"" ++ escapeAttr (toText "https://x.y/") ++ "\"" ++
        " target=\"_blank\" rel=\"noreferrer noopener\"" ++ ">" ++
        escapeHtml (toText "Open") ++ "</a>" ∧
    buildCtaLink ⟨"Read", "/about"⟩ "button" =
      "<a class=\"" ++ "button" ++ "\" href=\"" ++ escapeAttr (toText "/about") ++ "\"" ++ "" ++
        ">" ++ escapeHtml (toText "Read") ++ "</a>" :=
  ⟨(external_attrs_spec "" ⟨"Open", "https://x.y/"⟩ "button").2.2.1 (by decide),
   (external_attrs_spec "" ⟨"Read", "/about"⟩ "button").2.2.2 (by decide)⟩

/-- Single-character replacement removes its target (and introduces no
character absent from the replacement text). -/
theorem not_mem_replaceChar (target a : Char) (repl l : List Char)
    (hrepl : a ∉ repl) (h : a = target ∨ a ∉ l) : a ∉ replaceChar target repl l := by
  intro hmem
  unfold replaceChar at hmem
  rcases List.mem_flatMap.mp hmem with ⟨c, hc, hin⟩
  by_cases hct : c = target
  · rw [if_pos hct] at hin
    exact hrepl hin
  · rw [if_neg hct] at hin
    simp only [List.mem_singleton] at hin
    subst hin
    rcases h with h | h
    · exact hct h
    · exact h hc

/-- C9 counterexample: the variant script embeds its JSON-LD via plain
`JSON.stringify(data, null, 2)`, so a `<` in the project title survives
into the serialized payload as a raw angle bracket. -/
theorem jsonld_claim_false :
    '<' ∈ (Variant.buildProjectJsonLd demoSite { demoProject with title := "a<b" }).data := by
  decide

/-- C9 (amended): every JSON-LD payload of the main build script is
embedded through `safeJsonLd`, whose output contains no raw `<` and no
raw `>` for any JSON value (titles, summaries and tags with angle
brackets included); the variant script instead embeds unescaped
`JSON.stringify` output (see the counterexample). -/
theorem safeJsonLd_no_angle (v : Json) :
    '<' ∉ (safeJsonLd v).data ∧ '>' ∉ (safeJsonLd v).data := by
  constructor
  · show '<' ∉ replaceChar '>' "\\u003e".data (replaceChar '<' "\\u003c".data (jsonCompact v))
    apply not_mem_replaceChar
    · decide
    · right
      apply not_mem_replaceChar
      · decide
      · left; rfl
  · show '>' ∉ replaceChar '>' "\\u003e".data (replaceChar '<' "\\u003c".data (jsonCompact v))
    apply not_mem_replaceChar
    · decide
    · left; rfl

/-- C2: every filesystem operation of the build exists only after
`validateContent` has succeeded — a validation error propagates as the
build's error carrying no operation list, so an invalid document (for
example one with a duplicate slug) leaves the output untouched, while a
validated document always produces an operation list. -/
theorem buildSite_gated_on_validation (c : Content) (t1 t2 : String) :
    (∀ m, validateContent c = .error m → buildSiteOps c t1 t2 = .error m) ∧
    (validateContent c = .ok () → ∃ ops, buildSiteOps c t1 t2 = .ok ops) := by
  constructor
  · intro m h
    unfold buildSiteOps
    rw [h]
  · intro h
    unfold buildSiteOps
    rw [h]
    exact ⟨_, rfl⟩

/-- C2 witness: two projects sharing the slug `demo` make validation fail
with the duplicate-slug message, and the build then performs no
operation. -/
theorem buildSite_gated_witness :
    validateContent dupSlugContent = .error "Duplicate slug found: demo" ∧
    buildSiteOps dupSlugContent "index" "project" = .error "Duplicate slug found: demo" := by
  have hv : validateContent dupSlugContent = .error "Duplicate slug found: demo" := by rfl
  exact ⟨hv, (buildSite_gated_on_validation dupSlugContent "index" "project").1 _ hv⟩

/-- Sequencing one `assert` is taking the first error of one more rule. -/
theorem seqE_check_eq (b : Bool) (m : String) (x : Except String Unit) :
    seqE (check b m) x = if b then x else .error m := by
  cases b <;> simp [seqE, check]

/-- Unfolding of `firstError` on one rule. -/
theorem firstError_cons_eq (b : Bool) (m : String) (l : List (Bool × String)) :
    firstError ((b, m) :: l) = if b then firstError l else .error m := rfl

/-- A lone `assert` is the first error of a one-rule list. -/
theorem check_eq_firstError_single (b : Bool) (m : String) :
    check b m = firstError [(b, m)] := by
  cases b <;> simp [check, firstError]

/-- The first error of concatenated rule lists is the sequencing of the
first errors of the parts. -/
theorem firstError_append (l1 l2 : List (Bool × String)) :
    firstError (l1 ++ l2) = seqE (firstError l1) (firstError l2) := by
  induction l1 with
  | nil => simp [firstError, seqE]
  | cons x t ih =>
    rcases x with ⟨b, m⟩
    cases b <;> simp [firstError, seqE, ih]

/-- The `indexSections` assertion loop computes the first error of the
corresponding rule list. -/
theorem validateSections_eq (secs : List String) :
    ∀ i, validateSections secs i = firstError (sectionChecks secs i) := by
  induction secs with
  | nil => intro i; rfl
  | cons sec rest ih =>
    intro i
    simp only [validateSections, sectionChecks]
    rw [ih (i + 1), seqE_check_eq, firstError_cons_eq]

/-- The CTA assertion loop computes the first error of the corresponding
rule list. -/
theorem validateCtas_eq (pp : String) (ctas : List Cta) :
    ∀ j, validateCtas pp ctas j = firstError (ctaChecks pp ctas j) := by
  induction ctas with
  | nil => intro j; rfl
  | cons cta rest ih =>
    intro j
    simp only [validateCtas, ctaChecks]
    rw [ih (j + 1), seqE_check_eq, seqE_check_eq, firstError_cons_eq, firstError_cons_eq]

/-- One rule in front of a list sequences as one `assert` before the
rest. -/
theorem firstError_cons_seqE (b : Bool) (m : String) (l : List (Bool × String)) :
    firstError ((b, m) :: l) = seqE (check b m) (firstError l) := by
  cases b <;> simp [firstError, seqE, check]

/-- Sequencing with an empty rule list on the right is the identity. -/
theorem seqE_firstError_nil (a : Except String Unit) : seqE a (firstError []) = a := by
  cases a with
  | ok u => cases u; rfl
  | error m => rfl

/-- The per-project assertion sequence computes the first error of the
per-project rule list. -/
theorem validateProject_eq (sections : List String) (p : Project) (i : Nat)
    (slugs : List String) (orders : List ℚ) :
    validateProject sections p i slugs orders =
      firstError (projectChecks sections p i slugs orders) := by
  simp only [validateProject, projectChecks, firstError_append, firstError_cons_seqE,
    validateCtas_eq, seqE_firstError_nil]

/-- The projects loop computes the first error of the concatenated
per-project rule lists. -/
theorem validateProjects_eq (sections : List String) (ps : List Project) :
    ∀ (i : Nat) (slugs : List String) (orders : List ℚ),
      validateProjects sections ps i slugs orders =
        firstError (projectsChecks sections ps i slugs orders) := by
  induction ps with
  | nil => intro i slugs orders; rfl
  | cons p rest ih =>
    intro i slugs orders
    simp only [validateProjects, projectsChecks, firstError_append,
      validateProject_eq, ih]

/-- The validator returns the error of the first violated rule of the
ordered rule list. -/
theorem validateContent_eq_firstError (c : Content) :
    validateContent c = firstError (validationChecks c) := by
  simp only [validateContent, validationChecks, firstError_append, firstError_cons_seqE,
    validateSections_eq, validateProjects_eq]

/-- The first error is no error exactly when every rule holds. -/
theorem firstError_ok_iff (l : List (Bool × String)) :
    firstError l = .ok () ↔ ∀ x ∈ l, x.1 = true := by
  induction l with
  | nil => simp [firstError]
  | cons x t ih =>
    rcases x with ⟨b, m⟩
    cases b <;> simp [firstError, ih]

/-- The nonemptiness test of trimmed text, as a proposition. -/
theorem hasText_iff (v : String) : hasText v = true ↔ toText v ≠ "" := by
  unfold hasText
  rw [bne_iff_ne]
  constructor
  · intro h hempty
    apply h
    rw [hempty]
    rfl
  · intro h hlen
    apply h
    apply (string_eq_empty_iff (toText v)).mpr
    exact List.length_eq_zero.mp hlen

/-- The section rules all hold exactly when every section name has
text. -/
theorem sectionChecks_all_iff (secs : List String) :
    ∀ i, (∀ x ∈ sectionChecks secs i, x.1 = true) ↔
      (∀ sec ∈ secs, toText sec ≠ "") := by
  induction secs with
  | nil => intro i; simp [sectionChecks]
  | cons sec rest ih =>
    intro i
    simp only [sectionChecks, List.forall_mem_cons]
    rw [ih (i + 1)]
    simp [hasText_iff]

/-- The CTA rules all hold exactly when every CTA has a label and a
URL. -/
theorem ctaChecks_all_iff (pp : String) (ctas : List Cta) :
    ∀ j, (∀ x ∈ ctaChecks pp ctas j, x.1 = true) ↔
      (∀ cta ∈ ctas, toText cta.label ≠ "" ∧ toText cta.url ≠ "") := by
  induction ctas with
  | nil => intro j; simp [ctaChecks]
  | cons cta rest ih =>
    intro j
    simp only [ctaChecks, List.forall_mem_cons]
    rw [ih (j + 1)]
    simp [hasText_iff, and_assoc]

/-- The rules of one project all hold exactly when the project satisfies
the per-project invariants and its slug and order are fresh. -/
theorem projectChecks_all_iff (sections : List String) (p : Project) (i : Nat)
    (slugs : List String) (orders : List ℚ) :
    (∀ x ∈ projectChecks sections p i slugs orders, x.1 = true) ↔
      (ValidProject sections p ∧ p.slug ∉ slugs ∧ p.order.getD 0 ∉ orders) := by
  simp only [projectChecks, List.forall_mem_cons, List.forall_mem_append]
  rw [ctaChecks_all_iff (projPtr i) p.ctas 0]
  simp [hasText_iff, ValidProject, List.elem_iff, List.length_eq_zero]
  tauto

/-- The concatenated per-project rules all hold exactly when every
project is valid, the slugs are pairwise distinct and fresh with respect
to the already-seen set, and likewise for the numeric orders. -/
theorem projectsChecks_all_iff (sections : List String) (ps : List Project) :
    ∀ (i : Nat) (slugs : List String) (orders : List ℚ),
      (∀ x ∈ projectsChecks sections ps i slugs orders, x.1 = true) ↔
        ((∀ p ∈ ps, ValidProject sections p) ∧
         (ps.map Project.slug).Nodup ∧ (∀ p ∈ ps, p.slug ∉ slugs) ∧
         (ps.map (fun p => p.order.getD 0)).Nodup ∧
         (∀ p ∈ ps, p.order.getD 0 ∉ orders)) := by
  induction ps with
  | nil => intro i slugs orders; simp [projectsChecks]
  | cons p rest ih =>
    intro i slugs orders
    simp only [projectsChecks, List.forall_mem_append]
    rw [projectChecks_all_iff, ih (i + 1) (p.slug :: slugs) (p.order.getD 0 :: orders)]
    simp only [List.map_cons, List.nodup_cons, List.mem_map, List.forall_mem_cons,
      List.mem_cons, not_or, not_exists, not_and, imp_and, forall_and, or_imp,
      forall_eq]
    tauto

/-- The full ordered rule list holds exactly when the document satisfies
every invariant of the data model. -/
theorem validationChecks_all_iff (c : Content) :
    (∀ x ∈ validationChecks c, x.1 = true) ↔ ValidContent c := by
  simp only [validationChecks, List.forall_mem_cons, List.forall_mem_append]
  rw [sectionChecks_all_iff c.site.indexSections 0,
    projectsChecks_all_iff c.site.indexSections c.projects 0 [] []]
  simp [hasText_iff, ValidContent, List.length_eq_zero, bne_iff_ne]

/-- C1: the validator succeeds exactly on documents satisfying every
data-model invariant, and otherwise throws the error of the first
violated rule of the fixed ordered rule list — site-level required
fields, then `indexSections`, then the `canonicalBase` format, then
`projects` non-emptiness, then per-project rules in array order with the
slug-format rule before the slug-duplicate rule and the order-numeric
rule before the order-duplicate rule — so the same malformed input always
yields the same error message naming the offending field path. -/
theorem validateContent_spec (c : Content) :
    validateContent c = firstError (validationChecks c) ∧
    (validateContent c = Except.ok () ↔ ValidContent c) := by
  refine ⟨validateContent_eq_firstError c, ?_⟩
  rw [validateContent_eq_firstError c, firstError_ok_iff, validationChecks_all_iff]

/-- C1 witness: the validator evaluated on a concrete duplicate-slug
document equals the first error of its ordered rule list, which is the
duplicate-slug message of the second project. -/
theorem validateContent_spec_witness :
    validateContent dupSlugContent = firstError (validationChecks dupSlugContent) ∧
    firstError (validationChecks dupSlugContent) = .error "Duplicate slug found: demo" :=
  ⟨(validateContent_spec dupSlugContent).1, by rfl⟩

/-- C9 witness: the amended theorem applied to a concrete JSON value
whose string payload contains both angle brackets. -/
theorem safeJsonLd_no_angle_witness :
    '<' ∉ (safeJsonLd (Json.str "a<b>c")).data ∧ '>' ∉ (safeJsonLd (Json.str "a<b>c")).data :=
  safeJsonLd_no_angle (Json.str "a<b>c")

end Portfolio
